import Mathlib

/-!
Shallow embedding of the network ACL driver (`lxd/network/acl/driver_common.go`):
the rule/subject/port/config validators, the `init` normalisation invariant, and
the `Update`/`Rename`/`Delete` orchestration with its revert plan.  External
collaborators (store, OVN client, usage resolver) are modelled as oracles whose
outcomes are supplied per call; invoked operations are recorded in a log so that
"never invoked" properties are expressible.
-/

namespace ACL

/-- Rule directions (`ruleDirection` constants in the source). -/
inductive ruleDirection where
  | ingress
  | egress
deriving DecidableEq, Repr

/-- String rendering of a direction, as used in error messages. -/
def ruleDirection.str : ruleDirection → String
  | .ingress => "ingress"
  | .egress => "egress"

/-- Reserved ACL subject `@internal`. -/
def ruleSubjectInternal : String := "@internal"

/-- Reserved ACL subject `@external`. -/
def ruleSubjectExternal : String := "@external"

/-- Aliases for `@internal` (the `#` form is deprecated). -/
def ruleSubjectInternalAliases : List String := [ruleSubjectInternal, "#internal"]

/-- Aliases for `@external` (the `#` form is deprecated). -/
def ruleSubjectExternalAliases : List String := [ruleSubjectExternal, "#external"]

/-- Valid actions for rules (`ValidActions`). -/
def ValidActions : List String := ["allow", "drop", "reject"]

/-- Structured error values mirroring the error returns of `driver_common.go`.
Wrapping constructors model `errors.Wrapf`. -/
inductive Err where
  | actionInvalid
  | stateInvalid
  | aclNamesFetchFailed
  | invalidSource (e : Err)
  | invalidDestination (e : Err)
  | namedSubjectsNotAllowed (field : String) (dir : ruleDirection)
  | invalidSubject (s : String)
  | familyConflict
  | protocolInvalid
  | icmpTypeWithNonICMP
  | icmpCodeWithNonICMP
  | invalidSourcePort (e : Err)
  | invalidDestinationPort (e : Err)
  | invalidPort (p : String)
  | sourcePortWithProtocol (p : String)
  | destinationPortWithProtocol (p : String)
  | ipv6SourceWithProtocol (p : String)
  | ipv6DestinationWithProtocol (p : String)
  | ipv4SourceWithProtocol (p : String)
  | ipv4DestinationWithProtocol (p : String)
  | invalidICMPType
  | invalidICMPCode
  | icmpTypeWithoutProtocol
  | icmpCodeWithoutProtocol
  | sourcePortWithoutProtocol
  | destinationPortWithoutProtocol
  | invalidIngressRule (i : Nat) (e : Err)
  | invalidEgressRule (i : Nat) (e : Err)
  | duplicateIngressRule (i : Nat)
  | duplicateEgressRule (i : Nat)
  | invalidConfigValue (k : String) (e : Err)
  | invalidConfigOption (k : String)
  | nameRequired
  | nameReservedPrefix
  | invalidHostname
  | aclAlreadyExists
  | renameInUse
  | deleteInUse
  | usedByFailed
  | storeUpdateFailed
  | networkUsageFailed
  | ovnClientFailed
  | ensureACLsFailed
  | portGroupDeleteFailed
  | renameStoreFailed
  | deleteStoreFailed
deriving DecidableEq, Repr

/-- One ACL rule (`api.NetworkACLRule`). -/
structure NetworkACLRule where
  Action : String
  State : String
  Description : String
  Source : String
  Destination : String
  Protocol : String
  SourcePort : String
  DestinationPort : String
  ICMPType : String
  ICMPCode : String
deriving DecidableEq, Repr

/-- The all-empty rule, convenient base for building concrete rules. -/
def emptyRule : NetworkACLRule :=
  { Action := "", State := "", Description := "", Source := "", Destination := ""
    Protocol := "", SourcePort := "", DestinationPort := "", ICMPType := "", ICMPCode := "" }

/-- ASCII whitespace predicate used by the trim model. -/
def isSpaceChar (c : Char) : Bool :=
  c == ' ' || c == '\t' || c == '\n' || c == '\r'

/-- Trim whitespace from both ends of a character list. -/
def trimChars (l : List Char) : List Char :=
  ((l.dropWhile isSpaceChar).reverse.dropWhile isSpaceChar).reverse

/-- Split a character list on a single separator character (keeping empty
segments), as Go `strings.Split` does. -/
def splitChar (c : Char) : List Char → List (List Char)
  | [] => [[]]
  | x :: xs =>
    match splitChar c xs with
    | [] => [[x]]
    | g :: gs => if x == c then [] :: g :: gs else (x :: g) :: gs

/-- Split a character list on the two-character separator `::` (leftmost,
non-overlapping), as Go `strings.Split` does. -/
def splitColonColon : List Char → List (List Char)
  | [] => [[]]
  | [x] => [[x]]
  | x :: y :: rest =>
    if x == ':' && y == ':' then
      [] :: splitColonColon rest
    else
      match splitColonColon (y :: rest) with
      | [] => [[x]]
      | g :: gs => (x :: g) :: gs

/-- Modelled from the spec: `util.SplitNTrimSpace(s, ",", -1, false)` (not under
`src/`) splits a comma-separated list and trims whitespace around each token,
keeping empty tokens. -/
def SplitNTrimSpace (s : String) : List String :=
  (splitChar ',' s.toList).map fun g => String.mk (trimChars g)

/-- Comma-join of a token list (structural, so it evaluates in the kernel). -/
def joinComma : List String → String
  | [] => ""
  | [x] => x
  | x :: xs => x ++ "," ++ joinComma xs

/-- Modelled from the spec: `api.NetworkACLRule.Normalise` (not under `src/`)
re-renders subject lists and port lists as a single comma-joined string of
trimmed tokens. -/
def normaliseList (s : String) : String :=
  joinComma (SplitNTrimSpace s)

/-- Modelled from the spec: rule normalisation applies the list normalisation
to the subject and port list fields. -/
def NetworkACLRule.Normalise (r : NetworkACLRule) : NetworkACLRule :=
  { r with
    Source := normaliseList r.Source
    Destination := normaliseList r.Destination
    SourcePort := normaliseList r.SourcePort
    DestinationPort := normaliseList r.DestinationPort }

/-- Mutable part of an ACL (`api.NetworkACLPut`).  `Option` distinguishes Go
`nil` slices/maps (`none`) from empty ones (`some []`); the config map is an
association list. -/
structure NetworkACLPut where
  Description : String
  Ingress : Option (List NetworkACLRule)
  Egress : Option (List NetworkACLRule)
  Config : Option (List (String × String))
deriving DecidableEq, Repr

/-- Full ACL info (`api.NetworkACL` embeds `NetworkACLPut`). -/
structure NetworkACL where
  Name : String
  put : NetworkACLPut
deriving DecidableEq, Repr

/-- The common ACL driver struct (`common`); logger and state handle omitted,
store access is passed as oracles to each operation. -/
structure common where
  id : Int
  projectName : String
  info : NetworkACL
deriving DecidableEq, Repr

/-- Nonempty all-decimal-digit character list. -/
def isDigitChars (g : List Char) : Bool :=
  !g.isEmpty && g.all Char.isDigit

/-- Decimal value of a digit character list. -/
def decValChars (g : List Char) : Nat :=
  g.foldl (fun n c => n * 10 + (c.toNat - 48)) 0

/-- One dotted-decimal IPv4 component as accepted by Go `net.ParseIP`:
1-3 digits, value below 256, no leading zero. -/
def ipv4Component (g : List Char) : Bool :=
  isDigitChars g && g.length ≤ 3 && decValChars g ≤ 255
    && (g == ['0'] || !(g.headD ' ' == '0'))

/-- Dotted-decimal IPv4 address form (`net.ParseIP` v4 path). -/
def parseIPv4 (g : List Char) : Bool :=
  let parts := splitChar '.' g
  parts.length == 4 && parts.all ipv4Component

/-- One IPv6 hextet: 1-4 hexadecimal digits. -/
def hexGroup (g : List Char) : Bool :=
  !g.isEmpty && g.length ≤ 4 && g.all fun c =>
    c.isDigit || (97 ≤ c.toNat && c.toNat ≤ 102) || (65 ≤ c.toNat && c.toNat ≤ 70)

/-- Colon-separated IPv6 address form (`net.ParseIP` v6 path): eight hextets,
or fewer with a single `::` compression.  Embedded dotted-quad tails are not
modelled; no theorem below depends on them. -/
def parseIPv6 (g : List Char) : Bool :=
  match splitColonColon g with
  | [a] =>
    let gs := splitChar ':' a
    gs.length == 8 && gs.all hexGroup
  | [a, b] =>
    let ga := if a.isEmpty then [] else splitChar ':' a
    let gb := if b.isEmpty then [] else splitChar ':' b
    ga.all hexGroup && gb.all hexGroup && ga.length + gb.length ≤ 7
  | _ => false

/-- Go `net.ParseIP` followed by the `To4` family test: returns the IP family
of the token, or `none` when the token is not a literal address. -/
def ParseIPFamily (g : List Char) : Option Nat :=
  if parseIPv4 g then some 4 else if parseIPv6 g then some 6 else none

/-- `isNetworkAddress` closure in `validateRuleSubjects`. -/
def isNetworkAddress (s : String) : Option Nat :=
  ParseIPFamily s.toList

/-- `isNetworkAddressCIDR` closure: address part must parse, prefix length must
be a plain decimal within the family's bit width (Go `net.ParseCIDR`). -/
def isNetworkAddressCIDR (s : String) : Option Nat :=
  match splitChar '/' s.toList with
  | [addr, mask] =>
    match ParseIPFamily addr with
    | some v =>
      if isDigitChars mask && mask.length ≤ 3 && (mask == ['0'] || !(mask.headD ' ' == '0'))
          && decValChars mask ≤ (if v == 4 then 32 else 128) then
        some v
      else
        none
    | none => none
  | _ => none

/-- `isNetworkRange` closure; the range syntax (`validate.IsNetworkRange`, not
under `src/`) is modelled from the spec: exactly one `-` separator, both sides
valid addresses of the same family.  The family reported is the first side's. -/
def isNetworkRange (s : String) : Option Nat :=
  match splitChar '-' s.toList with
  | [a, b] =>
    match ParseIPFamily a, ParseIPFamily b with
    | some va, some vb => if va == vb then some va else none
    | _, _ => none
  | _ => none

/-- The ordered `checks` list of `validateRuleSubjects`: single address, then
CIDR, then range; first success wins. -/
def tokenIPVersion (s : String) : Option Nat :=
  match isNetworkAddress s with
  | some v => some v
  | none =>
    match isNetworkAddressCIDR s with
    | some v => some v
    | none => isNetworkRange s

/-- The `validSubject` closure: address tokens yield their family, known names
yield 0 when named subjects are allowed in this field/direction, and anything
else is an error. -/
def validSubject (fieldName : String) (dir : ruleDirection) (allowSubjectNames : Bool)
    (validSubjectNames : List String) (subject : String) : Except Err Nat :=
  match tokenIPVersion subject with
  | some v => .ok v
  | none =>
    if validSubjectNames.contains subject then
      if allowSubjectNames then .ok 0
      else .error (.namedSubjectsNotAllowed fieldName dir)
    else
      .error (.invalidSubject subject)

/-- The scan over subject tokens accumulating the name/IPv4/IPv6 flags. -/
def subjectsScan (fieldName : String) (dir : ruleDirection) (allowSubjectNames : Bool)
    (validSubjectNames : List String) :
    List String → Bool → Bool → Bool → Except Err (Bool × Bool × Bool)
  | [], hasName, hasIPv4, hasIPv6 => .ok (hasName, hasIPv4, hasIPv6)
  | s :: rest, hasName, hasIPv4, hasIPv6 =>
    match validSubject fieldName dir allowSubjectNames validSubjectNames s with
    | .error e => .error e
    | .ok v =>
      if v == 0 then subjectsScan fieldName dir allowSubjectNames validSubjectNames rest true hasIPv4 hasIPv6
      else if v == 4 then subjectsScan fieldName dir allowSubjectNames validSubjectNames rest hasName true hasIPv6
      else if v == 6 then subjectsScan fieldName dir allowSubjectNames validSubjectNames rest hasName hasIPv4 true
      else subjectsScan fieldName dir allowSubjectNames validSubjectNames rest hasName hasIPv4 hasIPv6

/-- `common.validateRuleSubjects`: named subjects are permitted only in Source
for ingress rules and in Destination for egress rules; returns the
(hasName, hasIPv4, hasIPv6) flags for the token list. -/
def validateRuleSubjects (fieldName : String) (dir : ruleDirection) (subjects : List String)
    (validSubjectNames : List String) : Except Err (Bool × Bool × Bool) :=
  let allowSubjectNames :=
    (fieldName == "Source" && dir == ruleDirection.ingress)
      || (fieldName == "Destination" && dir == ruleDirection.egress)
  subjectsScan fieldName dir allowSubjectNames validSubjectNames subjects false false false

/-- Modelled from the spec: `validate.IsNetworkPort` (not under `src/`), a
single port number within the 16-bit range. -/
def isNetworkPortChars (g : List Char) : Bool :=
  isDigitChars g && decValChars g ≤ 65535

/-- String wrapper for the port check. -/
def isNetworkPort (s : String) : Bool :=
  isNetworkPortChars s.toList

/-- Modelled from the spec: `validate.IsNetworkPortRange` (not under `src/`),
a `start-end` pair of ports with start ≤ end. -/
def isNetworkPortRange (s : String) : Bool :=
  match splitChar '-' s.toList with
  | [a, b] => isNetworkPortChars a && isNetworkPortChars b && decValChars a ≤ decValChars b
  | _ => false

/-- `common.validatePorts`: every token must be a port or a port range. -/
def validatePorts (ports : List String) : Except Err Unit :=
  match ports with
  | [] => .ok ()
  | p :: rest =>
    if isNetworkPort p || isNetworkPortRange p then validatePorts rest
    else .error (.invalidPort p)

/-- Modelled from the spec: `validate.IsUint8` (not under `src/`), a valid
single-byte unsigned integer. -/
def isUint8 (s : String) : Bool :=
  isDigitChars s.toList && decValChars s.toList ≤ 255

/-- Valid rule states. -/
def validStates : List String := ["enabled", "disabled", "logged"]

/-- Valid protocols. -/
def validProtocols : List String := ["icmp4", "icmp6", "tcp", "udp"]

/-- The tcp/udp block of "Validate protocol dependent fields": ICMP fields
must be absent, ports (when present) must be valid port lists. -/
def validateTCPUDPFields (rule : NetworkACLRule) : Except Err Unit :=
  if rule.ICMPType != "" then .error .icmpTypeWithNonICMP
  else if rule.ICMPCode != "" then .error .icmpCodeWithNonICMP
  else
    match (if rule.SourcePort != "" then validatePorts (SplitNTrimSpace rule.SourcePort) else .ok ()) with
    | .error e => .error (.invalidSourcePort e)
    | .ok _ =>
      match (if rule.DestinationPort != "" then validatePorts (SplitNTrimSpace rule.DestinationPort) else .ok ()) with
      | .error e => .error (.invalidDestinationPort e)
      | .ok _ => .ok ()

/-- The icmp4/icmp6 block of "Validate protocol dependent fields": ports must
be absent, literal families must match the ICMP family, ICMP type/code (when
present) must be single-byte integers. -/
def validateICMPFields (rule : NetworkACLRule)
    (srcHasIPv4 srcHasIPv6 dstHasIPv4 dstHasIPv6 : Bool) : Except Err Unit :=
  if rule.SourcePort != "" then .error (.sourcePortWithProtocol rule.Protocol)
  else if rule.DestinationPort != "" then .error (.destinationPortWithProtocol rule.Protocol)
  else if rule.Protocol == "icmp4" && srcHasIPv6 then .error (.ipv6SourceWithProtocol rule.Protocol)
  else if rule.Protocol == "icmp4" && dstHasIPv6 then .error (.ipv6DestinationWithProtocol rule.Protocol)
  else if rule.Protocol == "icmp6" && srcHasIPv4 then .error (.ipv4SourceWithProtocol rule.Protocol)
  else if rule.Protocol == "icmp6" && dstHasIPv4 then .error (.ipv4DestinationWithProtocol rule.Protocol)
  else if rule.ICMPType != "" && !(isUint8 rule.ICMPType) then .error .invalidICMPType
  else if rule.ICMPCode != "" && !(isUint8 rule.ICMPCode) then .error .invalidICMPCode
  else .ok ()

/-- The empty-protocol block of "Validate protocol dependent fields": none of
the protocol-dependent fields may be present. -/
def validateNoProtocolFields (rule : NetworkACLRule) : Except Err Unit :=
  if rule.ICMPType != "" then .error .icmpTypeWithoutProtocol
  else if rule.ICMPCode != "" then .error .icmpCodeWithoutProtocol
  else if rule.SourcePort != "" then .error .sourcePortWithoutProtocol
  else if rule.DestinationPort != "" then .error .destinationPortWithoutProtocol
  else .ok ()

/-- The protocol checks of `validateRule` ("Validate Protocol field" and
"Validate protocol dependent fields" in the source), given the address-family
flags computed for the rule subjects. -/
def validateProtocolFields (rule : NetworkACLRule)
    (srcHasIPv4 srcHasIPv6 dstHasIPv4 dstHasIPv6 : Bool) : Except Err Unit :=
  if rule.Protocol != "" && !(validProtocols.contains rule.Protocol) then
    .error .protocolInvalid
  else if ["tcp", "udp"].contains rule.Protocol then
    validateTCPUDPFields rule
  else if ["icmp4", "icmp6"].contains rule.Protocol then
    validateICMPFields rule srcHasIPv4 srcHasIPv6 dstHasIPv4 dstHasIPv6
  else
    validateNoProtocolFields rule

/-- The valid-name set built by `validateRule`: reserved classifier aliases
plus every ACL name in the project. -/
def validSubjectNamesFor (acls : List String) : List String :=
  ruleSubjectInternalAliases ++ ruleSubjectExternalAliases ++ acls

/-- `common.validateRule`: validates one rule for one direction.  `aclNames`
is the outcome of `GetNetworkACLIDsByNames` (`none` models a store failure). -/
def common.validateRule (_d : common) (aclNames : Option (List String))
    (direction : ruleDirection) (rule : NetworkACLRule) : Except Err Unit :=
  if !(ValidActions.contains rule.Action) then .error .actionInvalid
  else if !(validStates.contains rule.State) then .error .stateInvalid
  else
    match aclNames with
    | none => .error .aclNamesFetchFailed
    | some acls =>
      let validSubjectNames := validSubjectNamesFor acls
      let srcR : Except Err (Bool × Bool × Bool) :=
        if rule.Source != "" then
          validateRuleSubjects "Source" direction (SplitNTrimSpace rule.Source) validSubjectNames
        else .ok (false, false, false)
      match srcR with
      | .error e => .error (.invalidSource e)
      | .ok (srcHasName, srcHasIPv4, srcHasIPv6) =>
        let dstR : Except Err (Bool × Bool × Bool) :=
          if rule.Destination != "" then
            validateRuleSubjects "Destination" direction (SplitNTrimSpace rule.Destination) validSubjectNames
          else .ok (false, false, false)
        match dstR with
        | .error e => .error (.invalidDestination e)
        | .ok (dstHasName, dstHasIPv4, dstHasIPv6) =>
          if rule.Source != "" && rule.Destination != ""
              && ((srcHasIPv4 && !dstHasIPv4 && !dstHasName)
                || (dstHasIPv4 && !srcHasIPv4 && !srcHasName)
                || (srcHasIPv6 && !dstHasIPv6 && !dstHasName)
                || (dstHasIPv6 && !srcHasIPv6 && !srcHasName)) then
            .error .familyConflict
          else
            validateProtocolFields rule srcHasIPv4 srcHasIPv6 dstHasIPv4 dstHasIPv6

/-- Modelled from the spec: `shared.IsUserConfig` (not under `src/`), the
reserved user-defined-metadata naming convention, modelled as the dedicated
`user.` key prefix. -/
def IsUserConfig (k : String) : Bool :=
  List.isPrefixOf "user.".toList k.toList

/-- Go map read: a missing key yields the empty string. -/
def lookupConfig (config : List (String × String)) (k : String) : String :=
  ((config.find? fun p => p.1 == k).map Prod.snd).getD ""

/-- The first loop of `validateConfigMap`: run each registered validator
against its (possibly absent) value; a validator returns `some e` on failure. -/
def runConfigValidators (config : List (String × String)) :
    List (String × (String → Option Err)) → Except Err Unit
  | [] => .ok ()
  | (k, validator) :: rest =>
    match validator (lookupConfig config k) with
    | some e => .error (.invalidConfigValue k e)
    | none => runConfigValidators config rest

/-- The second loop of `validateConfigMap`: any key not covered by a validator
must be a user key. -/
def scanUncheckedKeys (checkedFields : List String) :
    List (String × String) → Except Err Unit
  | [] => .ok ()
  | (k, _) :: rest =>
    if checkedFields.contains k then scanUncheckedKeys checkedFields rest
    else if IsUserConfig k then scanUncheckedKeys checkedFields rest
    else .error (.invalidConfigOption k)

/-- `common.validateConfigMap`: run validators, then reject unknown non-user
keys.  The `rules` table is an association list (`[]` models the Go `nil`
map Update passes). -/
def common.validateConfigMap (_d : common) (config : List (String × String))
    (rules : List (String × (String → Option Err))) : Except Err Unit :=
  match runConfigValidators config rules with
  | .error e => .error e
  | .ok _ => scanUncheckedKeys (rules.map Prod.fst) config

/-- Direction-tagged per-rule validation error (`Invalid ingress/egress rule i`). -/
def invalidRuleErr : ruleDirection → Nat → Err → Err
  | .ingress, i, e => .invalidIngressRule i e
  | .egress, i, e => .invalidEgressRule i e

/-- Direction-tagged duplicate error (`Duplicate of ingress/egress rule i`). -/
def duplicateRuleErr : ruleDirection → Nat → Err
  | .ingress, i => .duplicateIngressRule i
  | .egress, i => .duplicateEgressRule i

/-- The inner duplicate scan of `validateConfig`: is there a rule equal to `r`
at an index other than `i`? -/
def dupExists (r : NetworkACLRule) (i : Nat) (all : List NetworkACLRule) : Bool :=
  all.enum.any fun p => p.1 != i && p.2 == r

/-- The per-direction loop of `validateConfig`: validate rule `i`, then scan
for a duplicate of it; `all` is the full (already normalised) rule list. -/
def common.validateDirRules (d : common) (aclNames : Option (List String))
    (dir : ruleDirection) (all : List NetworkACLRule) :
    List NetworkACLRule → Nat → Except Err Unit
  | [], _ => .ok ()
  | r :: rest, i =>
    match d.validateRule aclNames dir r with
    | .error e => .error (invalidRuleErr dir i e)
    | .ok _ =>
      if dupExists r i all then .error (duplicateRuleErr dir i)
      else d.validateDirRules aclNames dir all rest (i + 1)

/-- `common.validateConfig`: config-map check with a nil rule table, then
normalise all rules in place, then validate each direction with duplicate
detection.  Returns the normalised proposed config (Go normalises the caller's
`info` in place). -/
def common.validateConfig (d : common) (aclNames : Option (List String))
    (info : NetworkACLPut) : Except Err NetworkACLPut :=
  match d.validateConfigMap (info.Config.getD []) [] with
  | .error e => .error e
  | .ok _ =>
    let info2 :=
      { info with
        Ingress := info.Ingress.map (·.map NetworkACLRule.Normalise)
        Egress := info.Egress.map (·.map NetworkACLRule.Normalise) }
    let ingress := info2.Ingress.getD []
    let egress := info2.Egress.getD []
    match d.validateDirRules aclNames .ingress ingress ingress 0 with
    | .error e => .error e
    | .ok _ =>
      match d.validateDirRules aclNames .egress egress egress 0 with
      | .error e => .error e
      | .ok _ => .ok info2

/-- `common.init` body on the info value: a nil info becomes fresh, nil rule
sequences become empty, every rule is normalised, a nil config map becomes
empty. -/
def initInfo (info : Option NetworkACL) : NetworkACL :=
  let i : NetworkACL :=
    match info with
    | none => { Name := "", put := { Description := "", Ingress := none, Egress := none, Config := none } }
    | some i => i
  { i with
    put :=
      { i.put with
        Ingress := some ((i.put.Ingress.getD []).map NetworkACLRule.Normalise)
        Egress := some ((i.put.Egress.getD []).map NetworkACLRule.Normalise)
        Config := some (i.put.Config.getD []) } }

/-- `common.init`: reinitialise the handle's fields (state/logger omitted). -/
def common.init (_d : common) (id : Int) (projectName : String)
    (info : Option NetworkACL) : common :=
  { id := id, projectName := projectName, info := initInfo info }

/-- The handle's fields that every operation observes as non-nil collections. -/
def wellFormed (d : common) : Prop :=
  d.info.put.Ingress.isSome ∧ d.info.put.Egress.isSome ∧ d.info.put.Config.isSome

/-- Store / SDN operations invoked by the driver, recorded in order. -/
inductive Op where
  | updateACL (cfg : NetworkACLPut)
  | ensureACLs
  | ensureACLsRevert
  | portGroupDelete
  | renameACL (n : String)
  | deleteACL
deriving DecidableEq, Repr

/-- The observable external world: this ACL's store row and the log of
operations invoked on the collaborators. -/
structure World where
  storeConfig : NetworkACLPut
  storeName : String
  storeExists : Bool
  log : List Op
deriving DecidableEq, Repr

/-- Per-call outcomes of the collaborators used by `Update`. -/
structure UpdateEnv where
  aclNames : Option (List String)
  storeUpdateOk : Bool
  networkUsage : Option (List (String × String))
  ovnClientOk : Bool
  ensureACLsOk : Bool
  portGroupDeleteOk : Bool
  revertStoreOk : Bool
deriving Repr

/-- The revert closure pushed after the successful store write: best-effort
store restore (its own failure is ignored), then in-memory restore and
re-init. -/
def rollbackStore (oldConfig : NetworkACLPut) (env : UpdateEnv) (d : common) (w : World) :
    common × World :=
  let w :=
    { w with
      log := w.log ++ [.updateACL oldConfig]
      storeConfig := if env.revertStoreOk then oldConfig else w.storeConfig }
  let d := common.init d d.id d.projectName (some { d.info with put := oldConfig })
  (d, w)

/-- `common.Update`: validate, persist (pushing the store-restore revert),
apply in memory and re-init, scope affected OVN networks, synchronise OVN
(pushing its revert handle), delete unused port groups; on failure run the
revert plan in reverse and return the original error. -/
def common.Update (d : common) (w : World) (env : UpdateEnv) (config : NetworkACLPut) :
    Except Err Unit × common × World :=
  match d.validateConfig env.aclNames config with
  | .error e => (.error e, d, w)
  | .ok config =>
    let oldConfig := d.info.put
    let w1 := { w with log := w.log ++ [.updateACL config] }
    if !env.storeUpdateOk then (.error .storeUpdateFailed, d, w1)
    else
      let w1 := { w1 with storeConfig := config }
      let d1 := common.init d d.id d.projectName (some { d.info with put := config })
      match env.networkUsage with
      | none =>
        let r := rollbackStore oldConfig env d1 w1
        (.error .networkUsageFailed, r.1, r.2)
      | some nets =>
        let aclNets := nets.filter fun p => p.2 == "ovn"
        if aclNets.isEmpty then (.ok (), d1, w1)
        else if !env.ovnClientOk then
          let r := rollbackStore oldConfig env d1 w1
          (.error .ovnClientFailed, r.1, r.2)
        else
          match env.aclNames with
          | none =>
            let r := rollbackStore oldConfig env d1 w1
            (.error .aclNamesFetchFailed, r.1, r.2)
          | some _ =>
            let w2 := { w1 with log := w1.log ++ [.ensureACLs] }
            if !env.ensureACLsOk then
              let r := rollbackStore oldConfig env d1 w2
              (.error .ensureACLsFailed, r.1, r.2)
            else
              let w3 := { w2 with log := w2.log ++ [.portGroupDelete] }
              if !env.portGroupDeleteOk then
                let w4 := { w3 with log := w3.log ++ [.ensureACLsRevert] }
                let r := rollbackStore oldConfig env d1 w4
                (.error .portGroupDeleteFailed, r.1, r.2)
              else (.ok (), d1, w3)

/-- Per-call outcomes of the collaborators used by `Rename`/`Delete`.
`loadByNameFound` is whether `LoadByName(newName)` succeeded; `usedBy` is the
early-stop usage enumeration (`none` models a store failure). -/
structure LifeEnv where
  loadByNameFound : Bool
  usedBy : Option (List String)
  renameOk : Bool
  deleteOk : Bool
deriving Repr

/-- `common.isUsed`: early-stop usage check. -/
def common.isUsed (_d : common) (env : LifeEnv) : Except Err Bool :=
  match env.usedBy with
  | none => .error .usedByFailed
  | some l => .ok (!l.isEmpty)

/-- Modelled from the spec: `shared.ValidHostname` (not under `src/`), a
syntactically valid host-name-like token: alphanumerics and hyphens, at most
63 characters, no hyphen at either end, not purely numeric. -/
def ValidHostname (name : String) : Bool :=
  let l := name.toList
  !l.isEmpty && l.length ≤ 63 && l.all (fun c => c.isAlphanum || c == '-')
    && !(l.headD '-' == '-') && !(l.getLastD '-' == '-') && !(l.all Char.isDigit)

/-- `common.validateName`: nonempty, no reserved selector prefix, hostname
syntax. -/
def common.validateName (_d : common) (name : String) : Except Err Unit :=
  if name == "" then .error .nameRequired
  else if (match name.toList with
           | c :: _ => c == '@' || c == '%' || c == '#'
           | [] => false) then .error .nameReservedPrefix
  else if !(ValidHostname name) then .error .invalidHostname
  else .ok ()

/-- `common.Rename`: target-name collision check, in-use check, name syntax
check, then the store rename and the in-memory name update. -/
def common.Rename (d : common) (w : World) (env : LifeEnv) (newName : String) :
    Except Err Unit × common × World :=
  if env.loadByNameFound then (.error .aclAlreadyExists, d, w)
  else
    match d.isUsed env with
    | .error e => (.error e, d, w)
    | .ok true => (.error .renameInUse, d, w)
    | .ok false =>
      match d.validateName newName with
      | .error e => (.error e, d, w)
      | .ok _ =>
        let w := { w with log := w.log ++ [.renameACL newName] }
        if !env.renameOk then (.error .renameStoreFailed, d, w)
        else
          (.ok (), { d with info := { d.info with Name := newName } },
            { w with storeName := newName })

/-- `common.Delete`: in-use check, then the unconditional store delete. -/
def common.Delete (d : common) (w : World) (env : LifeEnv) : Except Err Unit × World :=
  match d.isUsed env with
  | .error e => (.error e, w)
  | .ok true => (.error .deleteInUse, w)
  | .ok false =>
    let w := { w with log := w.log ++ [.deleteACL] }
    if !env.deleteOk then (.error .deleteStoreFailed, w)
    else (.ok (), { w with storeExists := false })

/-! ## Concrete fixtures used by witnesses and counterexamples -/

/-- A baseline ACL handle in its initialised (normalised, non-nil) form. -/
def d0 : common :=
  { id := 1, projectName := "default"
    info :=
      { Name := "web"
        put := { Description := "", Ingress := some [], Egress := some [], Config := some [] } } }

/-- A store consistent with `d0`. -/
def w0 : World :=
  { storeConfig := d0.info.put, storeName := "web", storeExists := true, log := [] }

/-- The spec scenario rule for ACL "web". -/
def webRule : NetworkACLRule :=
  { emptyRule with
    Action := "allow", State := "enabled", Source := "10.0.0.0/24"
    Destination := "@internal", Protocol := "tcp", DestinationPort := "80,443" }

/-! ## Helper lemmas -/

/-- `init` always produces non-nil rule sequences and config map. -/
theorem wellFormed_init (d : common) (id : Int) (pn : String) (info : Option NetworkACL) :
    wellFormed (common.init d id pn info) := by
  cases info <;> simp [wellFormed, common.init, initInfo]

/-- `rollbackStore` re-inits the handle, so it is well-formed. -/
theorem wellFormed_rollbackStore (oldConfig : NetworkACLPut) (env : UpdateEnv)
    (d : common) (w : World) : wellFormed (rollbackStore oldConfig env d w).1 := by
  simp only [rollbackStore]
  exact wellFormed_init _ _ _ _

/-! ## Claims -/

/-- C2: a proposed configuration that fails rule-set or config validation makes
`Update` return the validation error with no side effects: the store row, the
operation log and the in-memory handle are all unchanged. -/
theorem update_validation_failure_no_side_effects
    (d : common) (w : World) (env : UpdateEnv) (cfg : NetworkACLPut) (e : Err)
    (h : d.validateConfig env.aclNames cfg = .error e) :
    d.Update w env cfg = (.error e, d, w) := by
  unfold common.Update
  rw [h]

/-- Witness for C2: an unknown config key is rejected with no side effects. -/
theorem update_validation_failure_no_side_effects_witness :
    d0.Update w0
        { aclNames := some [], storeUpdateOk := true, networkUsage := some []
          ovnClientOk := true, ensureACLsOk := true, portGroupDeleteOk := true
          revertStoreOk := true }
        { Description := "", Ingress := some [], Egress := some []
          Config := some [("bogus", "x")] }
      = (.error (.invalidConfigOption "bogus"), d0, w0) :=
  update_validation_failure_no_side_effects d0 w0 _ _ _ rfl

/-- C9: after initialisation and after every `Update` (in every outcome), the
handle's ingress sequence, egress sequence and config map are non-nil. -/
theorem handle_collections_never_nil
    (d : common) (w : World) (env : UpdateEnv) (cfg : NetworkACLPut)
    (id : Int) (pn : String) (info : Option NetworkACL) (hwf : wellFormed d) :
    wellFormed (common.init d id pn info) ∧ wellFormed (d.Update w env cfg).2.1 := by
  refine ⟨wellFormed_init d id pn info, ?_⟩
  unfold common.Update
  dsimp only
  repeat' split
  all_goals dsimp only
  all_goals
    first
      | exact hwf
      | exact wellFormed_rollbackStore _ _ _ _
      | exact wellFormed_init _ _ _ _

/-- Witness for C9: the invariant at a concrete handle, environment and
config. -/
theorem handle_collections_never_nil_witness :
    wellFormed (common.init d0 1 "default" none) ∧
      wellFormed (d0.Update w0
        { aclNames := some [], storeUpdateOk := true, networkUsage := some []
          ovnClientOk := true, ensureACLsOk := true, portGroupDeleteOk := true
          revertStoreOk := true }
        { Description := "", Ingress := none, Egress := none, Config := none }).2.1 :=
  handle_collections_never_nil d0 w0 _ _ 1 "default" none
    (by simp [wellFormed, d0])

/-- With no registered validators, the unchecked-key scan succeeds exactly when
every key is a user key. -/
theorem scanUncheckedKeys_nil_ok (config : List (String × String)) :
    scanUncheckedKeys [] config = .ok () ↔ ∀ p ∈ config, IsUserConfig p.1 = true := by
  induction config with
  | nil => simp [scanUncheckedKeys]
  | cons p rest ih =>
    cases p with
    | mk k v =>
      by_cases hk : IsUserConfig k = true
      · simp [scanUncheckedKeys, hk, ih]
      · simp [scanUncheckedKeys, hk]

/-- C10: `Update` runs the config-map validator with a nil rule table, so the
config check succeeds exactly when every key follows the user-metadata naming
convention, and any other key makes `Update` fail during validation with no
side effects. -/
theorem update_config_keys_user_only
    (d : common) (w : World) (env : UpdateEnv) (cfg : NetworkACLPut) :
    (d.validateConfigMap (cfg.Config.getD []) [] = .ok () ↔
      ∀ p ∈ cfg.Config.getD [], IsUserConfig p.1 = true) ∧
    ∀ e, d.validateConfigMap (cfg.Config.getD []) [] = .error e →
      d.Update w env cfg = (.error e, d, w) := by
  constructor
  · unfold common.validateConfigMap runConfigValidators
    exact scanUncheckedKeys_nil_ok _
  · intro e he
    have hv : d.validateConfig env.aclNames cfg = .error e := by
      unfold common.validateConfig
      rw [he]
    unfold common.Update
    rw [hv]

/-- A config map with only user-metadata keys. -/
def cfgUser : NetworkACLPut :=
  { Description := "", Ingress := some [], Egress := some []
    Config := some [("user.a", "1"), ("user.b", "2")] }

/-- A config map with a key outside the user-metadata convention. -/
def cfgBadKey : NetworkACLPut :=
  { Description := "", Ingress := some [], Egress := some []
    Config := some [("color", "red")] }

/-- An all-success collaborator environment for `Update`. -/
def envAllOk : UpdateEnv :=
  { aclNames := some [], storeUpdateOk := true, networkUsage := some []
    ovnClientOk := true, ensureACLsOk := true, portGroupDeleteOk := true
    revertStoreOk := true }

/-- Witness for C10: an all-user config map passes; a non-user key makes
`Update` fail with no side effects. -/
theorem update_config_keys_user_only_witness :
    d0.validateConfigMap (cfgUser.Config.getD []) [] = .ok () ∧
    d0.Update w0 envAllOk cfgBadKey = (.error (.invalidConfigOption "color"), d0, w0) :=
  ⟨(update_config_keys_user_only d0 w0 envAllOk cfgUser).1.mpr (by decide),
   (update_config_keys_user_only d0 w0 envAllOk cfgBadKey).2 (.invalidConfigOption "color") rfl⟩

/-- C7: an in-use ACL (with a free target name, for Rename) cannot be renamed
or deleted: both fail with the conflict error and the store rename/delete is
never invoked, leaving name, existence and store row unchanged. -/
theorem rename_delete_in_use_guard
    (d : common) (w : World) (env : LifeEnv) (newName : String) (l : List String)
    (hu : env.usedBy = some l) (hne : l ≠ []) (hfound : env.loadByNameFound = false) :
    d.Rename w env newName = (.error .renameInUse, d, w) ∧
    d.Delete w env = (.error .deleteInUse, w) := by
  have hused : d.isUsed env = .ok true := by
    unfold common.isUsed
    rw [hu]
    cases l with
    | nil => exact absurd rfl hne
    | cons a as => rfl
  constructor
  · unfold common.Rename
    rw [hfound, hused]
    rfl
  · unfold common.Delete
    rw [hused]

/-- Witness for C7: a concrete in-use ACL refuses Rename and Delete. -/
theorem rename_delete_in_use_guard_witness :
    d0.Rename w0
        { loadByNameFound := false, usedBy := some ["/1.0/networks/n1"]
          renameOk := true, deleteOk := true } "web2"
      = (.error .renameInUse, d0, w0) ∧
    d0.Delete w0
        { loadByNameFound := false, usedBy := some ["/1.0/networks/n1"]
          renameOk := true, deleteOk := true }
      = (.error .deleteInUse, w0) :=
  rename_delete_in_use_guard d0 w0 _ "web2" ["/1.0/networks/n1"] rfl
    (by simp) rfl

/-- A protocol cannot be in both the tcp/udp and the icmp4/icmp6 class. -/
theorem not_both_proto (p : String)
    (h1 : (["tcp", "udp"].contains p) = true)
    (h2 : (["icmp4", "icmp6"].contains p) = true) : False := by
  simp only [List.contains_cons, List.contains_nil, Bool.or_false, Bool.or_eq_true,
    beq_iff_eq] at h1 h2
  rcases h1 with h1 | h1 <;> rcases h2 with h2 | h2 <;> simp_all

/-- The tcp/udp checks never report the family-conflict error. -/
theorem validateTCPUDPFields_ne_family (rule : NetworkACLRule) :
    validateTCPUDPFields rule ≠ .error .familyConflict := by
  intro h
  unfold validateTCPUDPFields at h
  repeat' (split at h)
  all_goals
    first
      | exact Except.noConfusion h
      | exact Err.noConfusion (Except.error.inj h)

/-- The icmp checks never report the family-conflict error. -/
theorem validateICMPFields_ne_family (rule : NetworkACLRule) (a b c e : Bool) :
    validateICMPFields rule a b c e ≠ .error .familyConflict := by
  intro h
  unfold validateICMPFields at h
  repeat' (split at h)
  all_goals
    first
      | exact Except.noConfusion h
      | exact Err.noConfusion (Except.error.inj h)

/-- The empty-protocol checks never report the family-conflict error. -/
theorem validateNoProtocolFields_ne_family (rule : NetworkACLRule) :
    validateNoProtocolFields rule ≠ .error .familyConflict := by
  intro h
  unfold validateNoProtocolFields at h
  repeat' (split at h)
  all_goals
    first
      | exact Except.noConfusion h
      | exact Err.noConfusion (Except.error.inj h)

/-- The protocol checks never report the family-conflict error. -/
theorem validateProtocolFields_ne_family (rule : NetworkACLRule)
    (a b c e : Bool) :
    validateProtocolFields rule a b c e ≠ .error .familyConflict := by
  intro h
  unfold validateProtocolFields at h
  repeat' (split at h)
  all_goals
    first
      | exact Err.noConfusion (Except.error.inj h)
      | exact validateTCPUDPFields_ne_family rule h
      | exact validateICMPFields_ne_family rule a b c e h
      | exact validateNoProtocolFields_ne_family rule h

/-- Successful tcp/udp checks imply both ICMP fields are empty. -/
theorem validateTCPUDPFields_ok (r : NetworkACLRule)
    (h : validateTCPUDPFields r = .ok ()) : r.ICMPType = "" ∧ r.ICMPCode = "" := by
  unfold validateTCPUDPFields at h
  repeat' (split at h)
  all_goals first | exact Except.noConfusion h | simp_all

/-- Successful icmp checks imply both port fields are empty. -/
theorem validateICMPFields_ok (r : NetworkACLRule) (a b c e : Bool)
    (h : validateICMPFields r a b c e = .ok ()) :
    r.SourcePort = "" ∧ r.DestinationPort = "" := by
  unfold validateICMPFields at h
  repeat' (split at h)
  all_goals first | exact Except.noConfusion h | simp_all

/-- Successful empty-protocol checks imply all four dependent fields are
empty. -/
theorem validateNoProtocolFields_ok (r : NetworkACLRule)
    (h : validateNoProtocolFields r = .ok ()) :
    r.ICMPType = "" ∧ r.ICMPCode = "" ∧ r.SourcePort = "" ∧ r.DestinationPort = "" := by
  unfold validateNoProtocolFields at h
  repeat' (split at h)
  all_goals first | exact Except.noConfusion h | simp_all

/-- Field facts extracted from successful protocol checks. -/
theorem validateProtocolFields_ok_fields (r : NetworkACLRule) (a b c e : Bool)
    (h : validateProtocolFields r a b c e = .ok ()) :
    (["tcp", "udp"].contains r.Protocol = true → r.ICMPType = "" ∧ r.ICMPCode = "") ∧
    (["icmp4", "icmp6"].contains r.Protocol = true →
      r.SourcePort = "" ∧ r.DestinationPort = "") ∧
    (r.Protocol = "" →
      r.ICMPType = "" ∧ r.ICMPCode = "" ∧ r.SourcePort = "" ∧ r.DestinationPort = "") := by
  unfold validateProtocolFields at h
  repeat' (split at h)
  · exact Except.noConfusion h
  · refine ⟨fun _ => validateTCPUDPFields_ok r h, fun hic => ?_, fun hemp => ?_⟩
    · exact absurd hic (by intro hic2; exact not_both_proto r.Protocol (by assumption) hic2)
    · rename_i htu
      rw [hemp] at htu
      simp at htu
  · refine ⟨fun htu => ?_, fun _ => validateICMPFields_ok r a b c e h, fun hemp => ?_⟩
    · exact absurd htu (by intro htu2; exact not_both_proto r.Protocol htu2 (by assumption))
    · rename_i hic
      rw [hemp] at hic
      simp at hic
  · obtain ⟨h1, h2, h3, h4⟩ := validateNoProtocolFields_ok r h
    exact ⟨fun _ => ⟨h1, h2⟩, fun _ => ⟨h3, h4⟩, fun _ => ⟨h1, h2, h3, h4⟩⟩

/-- Field facts extracted from a successful rule validation. -/
theorem validateRule_ok_fields (d : common) (aclNames : Option (List String))
    (dir : ruleDirection) (r : NetworkACLRule)
    (h : d.validateRule aclNames dir r = .ok ()) :
    (["tcp", "udp"].contains r.Protocol = true → r.ICMPType = "" ∧ r.ICMPCode = "") ∧
    (["icmp4", "icmp6"].contains r.Protocol = true →
      r.SourcePort = "" ∧ r.DestinationPort = "") ∧
    (r.Protocol = "" →
      r.ICMPType = "" ∧ r.ICMPCode = "" ∧ r.SourcePort = "" ∧ r.DestinationPort = "") := by
  unfold common.validateRule at h
  dsimp only at h
  repeat' split at h
  all_goals
    first
      | exact Except.noConfusion h
      | exact validateProtocolFields_ok_fields r _ _ _ _ h

/-- C5: protocol-dependent field legality.  With tcp/udp, a set ICMP type or
code makes validation fail; with icmp4/icmp6, a set source or destination port
makes validation fail; with an empty protocol, any of the four fields set
makes validation fail. -/
theorem protocol_field_partition (d : common) (aclNames : Option (List String))
    (dir : ruleDirection) (r : NetworkACLRule) :
    (["tcp", "udp"].contains r.Protocol = true →
      r.ICMPType ≠ "" ∨ r.ICMPCode ≠ "" →
      d.validateRule aclNames dir r ≠ .ok ()) ∧
    (["icmp4", "icmp6"].contains r.Protocol = true →
      r.SourcePort ≠ "" ∨ r.DestinationPort ≠ "" →
      d.validateRule aclNames dir r ≠ .ok ()) ∧
    (r.Protocol = "" →
      r.ICMPType ≠ "" ∨ r.ICMPCode ≠ "" ∨ r.SourcePort ≠ "" ∨ r.DestinationPort ≠ "" →
      d.validateRule aclNames dir r ≠ .ok ()) := by
  refine ⟨fun hp hset h => ?_, fun hp hset h => ?_, fun hp hset h => ?_⟩
  · obtain ⟨h1, -, -⟩ := validateRule_ok_fields d aclNames dir r h
    obtain ⟨e1, e2⟩ := h1 hp
    tauto
  · obtain ⟨-, h2, -⟩ := validateRule_ok_fields d aclNames dir r h
    obtain ⟨e1, e2⟩ := h2 hp
    tauto
  · obtain ⟨-, -, h3⟩ := validateRule_ok_fields d aclNames dir r h
    obtain ⟨e1, e2, e3, e4⟩ := h3 hp
    tauto

/-- Witness for C5: one concrete violating rule per protocol class. -/
theorem protocol_field_partition_witness :
    d0.validateRule (some []) .ingress
        { emptyRule with Action := "allow", State := "enabled", Protocol := "tcp", ICMPType := "8" }
      ≠ .ok () ∧
    d0.validateRule (some []) .ingress
        { emptyRule with Action := "allow", State := "enabled", Protocol := "icmp4", SourcePort := "80" }
      ≠ .ok () ∧
    d0.validateRule (some []) .ingress
        { emptyRule with Action := "allow", State := "enabled", DestinationPort := "80" }
      ≠ .ok () :=
  ⟨(protocol_field_partition d0 (some []) .ingress _).1 rfl (Or.inl (by decide)),
   (protocol_field_partition d0 (some []) .ingress _).2.1 rfl (Or.inl (by decide)),
   (protocol_field_partition d0 (some []) .ingress _).2.2 rfl
     (Or.inr (Or.inr (Or.inr (by decide))))⟩

/-- C3: a subject token that is no address form and is a member of the
valid-name set is accepted exactly in (Source, ingress) and
(Destination, egress); in every other field/direction combination it fails
with the named-subjects-not-allowed error. -/
theorem named_subject_field_direction
    (field : String) (dir : ruleDirection) (s : String) (names : List String)
    (haddr : tokenIPVersion s = none) (hmem : names.contains s = true) :
    (((field == "Source" && dir == ruleDirection.ingress)
        || (field == "Destination" && dir == ruleDirection.egress)) = true →
      validateRuleSubjects field dir [s] names = .ok (true, false, false)) ∧
    (((field == "Source" && dir == ruleDirection.ingress)
        || (field == "Destination" && dir == ruleDirection.egress)) = false →
      validateRuleSubjects field dir [s] names
        = .error (.namedSubjectsNotAllowed field dir)) := by
  have hmem2 : s ∈ names := by
    simpa using hmem
  constructor <;> intro hallow <;>
    simp [validateRuleSubjects, subjectsScan, validSubject, haddr, hmem2, hallow]

/-- Witness for C3: `@internal` accepted as ingress Source, rejected as
ingress Destination. -/
theorem named_subject_field_direction_witness :
    validateRuleSubjects "Source" .ingress ["@internal"] (validSubjectNamesFor [])
      = .ok (true, false, false) ∧
    validateRuleSubjects "Destination" .ingress ["@internal"] (validSubjectNamesFor [])
      = .error (.namedSubjectsNotAllowed "Destination" .ingress) :=
  ⟨(named_subject_field_direction "Source" .ingress "@internal"
      (validSubjectNamesFor []) rfl rfl).1 rfl,
   (named_subject_field_direction "Destination" .ingress "@internal"
      (validSubjectNamesFor []) rfl rfl).2 rfl⟩

/-- C4: with both Source and Destination non-empty and both subject lists
valid, rule validation reports the family-conflict error exactly when one side
is IPv4-only and the other is neither IPv4 nor name-only, or symmetrically for
IPv6. -/
theorem family_conflict_iff
    (d : common) (acls : List String) (dir : ruleDirection) (r : NetworkACLRule)
    (sn s4 s6 dn d4 d6 : Bool)
    (hA : ValidActions.contains r.Action = true)
    (hSt : validStates.contains r.State = true)
    (hsrc : r.Source ≠ "") (hdst : r.Destination ≠ "")
    (hS : validateRuleSubjects "Source" dir (SplitNTrimSpace r.Source)
        (validSubjectNamesFor acls) = .ok (sn, s4, s6))
    (hD : validateRuleSubjects "Destination" dir (SplitNTrimSpace r.Destination)
        (validSubjectNamesFor acls) = .ok (dn, d4, d6)) :
    d.validateRule (some acls) dir r = .error .familyConflict ↔
      ((s4 && !d4 && !dn) || (d4 && !s4 && !sn)
        || (s6 && !d6 && !dn) || (d6 && !s6 && !sn)) = true := by
  have hsrcB : (r.Source != "") = true := bne_iff_ne.mpr hsrc
  have hdstB : (r.Destination != "") = true := bne_iff_ne.mpr hdst
  unfold common.validateRule
  dsimp only
  rw [hA, hSt]
  simp only [Bool.not_true, Bool.false_eq_true, if_false, hsrcB, if_true, hS, hD,
    hdstB, Bool.true_and]
  set fam := ((s4 && !d4 && !dn) || (d4 && !s4 && !sn)
    || (s6 && !d6 && !dn) || (d6 && !s6 && !sn)) with hfam
  cases hf : fam with
  | true => simp [hf]
  | false =>
    simp only [hf, Bool.false_eq_true, if_false, iff_false]
    exact validateProtocolFields_ne_family r s4 s6 d4 d6

/-- Rule with an IPv4 literal source and IPv6 literal destination. -/
def mismatchRule : NetworkACLRule :=
  { emptyRule with Action := "allow", State := "enabled"
                   Source := "192.0.2.0/24", Destination := "2001:db8::/32" }

/-- Same rule with the named classifier `@external` as destination. -/
def mismatchRuleNamed : NetworkACLRule :=
  { mismatchRule with Destination := "@external" }

/-- Witness for C4: two literal sides of different families conflict; a named
destination with the same IPv4 source does not. -/
theorem family_conflict_iff_witness :
    d0.validateRule (some []) .egress mismatchRule = .error .familyConflict ∧
    d0.validateRule (some []) .egress mismatchRuleNamed ≠ .error .familyConflict :=
  ⟨(family_conflict_iff d0 [] .egress mismatchRule false true false false false true rfl rfl
      (by decide) (by decide) rfl rfl).mpr rfl,
   fun h =>
    absurd ((family_conflict_iff d0 [] .egress mismatchRuleNamed false true false true false false
      rfl rfl (by decide) (by decide) rfl rfl).mp h) (by decide)⟩

/-- The spec scenario rule with protocol icmp4 and destination port 80. -/
def webRuleICMP : NetworkACLRule :=
  { webRule with Protocol := "icmp4", DestinationPort := "80" }

/-- Counterexample for C8: the scenario rule is an ingress rule with the named
subject `@internal` in Destination, which the code rejects (named subjects are
only allowed in Destination for egress rules) — it does not pass validation. -/
theorem web_scenario_ingress_counterexample :
    d0.validateRule (some []) .ingress webRule
      = .error (.invalidDestination (.namedSubjectsNotAllowed "Destination" .ingress)) := rfl

/-- C8 (amended): the same rule as an egress rule passes validation, and with
protocol icmp4 and destination port 80 it fails with the
port-with-ICMP-protocol error. -/
theorem web_scenario_egress :
    d0.validateRule (some []) .egress webRule = .ok () ∧
    d0.validateRule (some []) .egress webRuleICMP
      = .error (.destinationPortWithProtocol "icmp4") :=
  ⟨rfl, rfl⟩

/-- Index of the first rule in the suffix `l` (starting at index `i` of the
full list `all`) that has a field-wise-identical partner elsewhere in `all`. -/
def firstDupIdx (all : List NetworkACLRule) : List NetworkACLRule → Nat → Option Nat
  | [], _ => none
  | r :: rest, i => if dupExists r i all then some i else firstDupIdx all rest (i + 1)

/-- The normalised ingress rules `validateConfig` works on. -/
def normIngress (info : NetworkACLPut) : List NetworkACLRule :=
  (info.Ingress.map fun l => l.map NetworkACLRule.Normalise).getD []

/-- The normalised egress rules `validateConfig` works on. -/
def normEgress (info : NetworkACLPut) : List NetworkACLRule :=
  (info.Egress.map fun l => l.map NetworkACLRule.Normalise).getD []

/-- When every rule of the suffix validates, the per-direction loop returns
the duplicate error at the first duplicate index, or success. -/
theorem validateDirRules_spec (d : common) (aclNames : Option (List String))
    (dir : ruleDirection) (all : List NetworkACLRule) :
    ∀ (l : List NetworkACLRule) (i : Nat),
      (∀ r ∈ l, d.validateRule aclNames dir r = .ok ()) →
      d.validateDirRules aclNames dir all l i =
        match firstDupIdx all l i with
        | some k => .error (duplicateRuleErr dir k)
        | none => .ok () := by
  intro l
  induction l with
  | nil => intro i _; rfl
  | cons r rest ih =>
    intro i hv
    unfold common.validateDirRules firstDupIdx
    rw [hv r (by simp)]
    by_cases hd : dupExists r i all = true
    · simp [hd]
    · rw [Bool.not_eq_true] at hd
      simp [hd, ih (i + 1) fun r2 hr2 => hv r2 (by simp [hr2])]

/-- `firstDupIdx all all 0` really is the least index with a duplicate
partner. -/
theorem firstDupIdx_least (all : List NetworkACLRule) :
    ∀ (l : List NetworkACLRule) (i k : Nat), l = all.drop i →
      firstDupIdx all l i = some k →
      i ≤ k ∧ dupExists (all.getD k emptyRule) k all = true ∧
        ∀ j, i ≤ j → j < k → dupExists (all.getD j emptyRule) j all = false := by
  intro l
  induction l with
  | nil =>
    intro i k _ h
    exact absurd h (by simp [firstDupIdx])
  | cons r rest ih =>
    intro i k hl h
    have hget : all.getD i emptyRule = r := by
      have h1 : all[i]? = some r := by
        rw [← List.head?_drop, ← hl]
        rfl
      rw [List.getD_eq_getElem?_getD, h1]
      rfl
    unfold firstDupIdx at h
    by_cases hd : dupExists r i all = true
    · rw [if_pos hd] at h
      obtain rfl : i = k := Option.some.inj h
      exact ⟨le_rfl, by rwa [hget], fun j h1 h2 => absurd (lt_of_le_of_lt h1 h2) (lt_irrefl i)⟩
    · rw [if_neg hd] at h
      have hrest : rest = all.drop (i + 1) := by
        rw [← List.tail_drop, ← hl]
        rfl
      obtain ⟨hik, hdup, hmin⟩ := ih (i + 1) k hrest h
      refine ⟨le_trans (Nat.le_succ i) hik, hdup, fun j h1 h2 => ?_⟩
      rcases Nat.eq_or_lt_of_le h1 with rfl | h1
      · rw [hget]
        exact Bool.not_eq_true _ |>.mp hd
      · exact hmin j h1 h2

/-- A rule with an invalid action, used duplicated. -/
def badRule : NetworkACLRule := { emptyRule with Action := "bogus" }

/-- A config whose ingress list is the same invalid rule twice. -/
def cfgBadDup : NetworkACLPut :=
  { Description := "", Ingress := some [badRule, badRule], Egress := some []
    Config := some [] }

/-- Counterexample for C6: a rule-set made of two field-wise-identical
(normalised) rules does not always fail with a duplicate error — when the
duplicated rule is itself invalid, the per-rule validation error for the first
rule is reported instead, because validation and duplicate scanning are
interleaved per rule rather than phased. -/
theorem duplicate_rules_counterexample :
    d0.validateConfig (some []) cfgBadDup
        = .error (.invalidIngressRule 0 .actionInvalid) ∧
      Err.invalidIngressRule 0 Err.actionInvalid ≠ Err.duplicateIngressRule 0 ∧
      Err.invalidIngressRule 0 Err.actionInvalid ≠ Err.duplicateIngressRule 1 :=
  ⟨rfl, fun h => Err.noConfusion h, fun h => Err.noConfusion h⟩

/-- C6 (amended): after normalising every rule, provided every normalised rule
passes per-rule validation, a pair of field-wise-identical rules within one
direction makes `validateConfig` fail with the duplicate error carrying the
first duplicate's index (`firstDupIdx`, the least such index by
`firstDupIdx_least`), ingress checked before egress; with no within-direction
duplicate the validation succeeds, so an identical pair split across ingress
and egress is permitted. -/
theorem duplicate_rules_detected (d : common) (aclNames : Option (List String))
    (info : NetworkACLPut)
    (hcfg : d.validateConfigMap (info.Config.getD []) [] = .ok ())
    (hvi : ∀ r ∈ normIngress info, d.validateRule aclNames .ingress r = .ok ())
    (hve : ∀ r ∈ normEgress info, d.validateRule aclNames .egress r = .ok ()) :
    (∀ k, firstDupIdx (normIngress info) (normIngress info) 0 = some k →
      d.validateConfig aclNames info = .error (.duplicateIngressRule k)) ∧
    (firstDupIdx (normIngress info) (normIngress info) 0 = none →
      ∀ k, firstDupIdx (normEgress info) (normEgress info) 0 = some k →
        d.validateConfig aclNames info = .error (.duplicateEgressRule k)) ∧
    (firstDupIdx (normIngress info) (normIngress info) 0 = none →
      firstDupIdx (normEgress info) (normEgress info) 0 = none →
        ∃ out, d.validateConfig aclNames info = .ok out) := by
  have hnidef : (Option.map (fun x => List.map NetworkACLRule.Normalise x) info.Ingress).getD []
      = normIngress info := rfl
  have hnedef : (Option.map (fun x => List.map NetworkACLRule.Normalise x) info.Egress).getD []
      = normEgress info := rfl
  unfold common.validateConfig
  rw [hcfg]
  dsimp only
  rw [hnidef, hnedef, validateDirRules_spec d aclNames .ingress _ _ _ hvi,
    validateDirRules_spec d aclNames .egress _ _ _ hve]
  refine ⟨fun k hk => ?_, fun hni k hk => ?_, fun hni hne => ?_⟩
  · rw [show firstDupIdx (normIngress info) (normIngress info) 0 = some k from hk]
    rfl
  · rw [show firstDupIdx (normIngress info) (normIngress info) 0 = none from hni,
      show firstDupIdx (normEgress info) (normEgress info) 0 = some k from hk]
    rfl
  · rw [show firstDupIdx (normIngress info) (normIngress info) 0 = none from hni,
      show firstDupIdx (normEgress info) (normEgress info) 0 = none from hne]
    exact ⟨_, rfl⟩

/-- A valid rule used to build duplicate and cross-direction sets. -/
def plainRule : NetworkACLRule := { emptyRule with Action := "allow", State := "enabled" }

/-- A config whose ingress list duplicates a valid rule. -/
def cfgValidDup : NetworkACLPut :=
  { Description := "", Ingress := some [plainRule, plainRule], Egress := some []
    Config := some [] }

/-- A config with the same single rule in ingress and egress. -/
def cfgCross : NetworkACLPut :=
  { Description := "", Ingress := some [plainRule], Egress := some [plainRule]
    Config := some [] }

/-- Witness for C6: a same-direction duplicate is rejected with index 0; the
same rule in both directions is accepted. -/
theorem duplicate_rules_detected_witness :
    d0.validateConfig (some []) cfgValidDup = .error (.duplicateIngressRule 0) ∧
    ∃ out, d0.validateConfig (some []) cfgCross = .ok out := by
  constructor
  · refine (duplicate_rules_detected d0 (some []) cfgValidDup rfl ?_ ?_).1 0 rfl
    · intro r hr
      have he : normIngress cfgValidDup = [plainRule, plainRule] := rfl
      rw [he] at hr
      simp only [List.mem_cons, List.not_mem_nil, or_false] at hr
      rcases hr with rfl | rfl <;> rfl
    · intro r hr
      have he : normEgress cfgValidDup = [] := rfl
      rw [he] at hr
      exact absurd hr (List.not_mem_nil r)
  · refine (duplicate_rules_detected d0 (some []) cfgCross rfl ?_ ?_).2.2 rfl rfl
    · intro r hr
      have he : normIngress cfgCross = [plainRule] := rfl
      rw [he] at hr
      simp only [List.mem_cons, List.not_mem_nil, or_false] at hr
      subst hr
      rfl
    · intro r hr
      have he : normEgress cfgCross = [plainRule] := rfl
      rw [he] at hr
      simp only [List.mem_cons, List.not_mem_nil, or_false] at hr
      subst hr
      rfl

/-- Executing the store-restore revert action returns the handle to its
pre-Update value (given a normalised handle) and writes the old config back. -/
theorem rollback_restores (d : common) (env : UpdateEnv) (cfg2 : NetworkACLPut) (w2 : World)
    (hinit : initInfo (some d.info) = d.info) (hrev : env.revertStoreOk = true) :
    rollbackStore d.info.put env
        (common.init d d.id d.projectName (some { d.info with put := cfg2 })) w2
      = (d, { w2 with storeConfig := d.info.put
                      log := w2.log ++ [.updateACL d.info.put] }) := by
  unfold rollbackStore common.init
  rw [hrev]
  dsimp only
  show (({ id := d.id, projectName := d.projectName, info := initInfo (some d.info) } : common),
      ({ w2 with storeConfig := d.info.put, log := w2.log ++ [.updateACL d.info.put] } : World))
    = _
  rw [hinit]

/-- C1: whenever `Update` fails after the successful store write — the usage
scan fails, the OVN client cannot be created, the ACL-name fetch fails, the
OVN synchronisation fails, or the port-group cleanup fails — the reversal plan
runs in reverse order (visible in the log: the OVN revert precedes the store
restore), the store row and in-memory handle return to their pre-Update
values, and the original step error is returned. -/
theorem update_failure_rolls_back (d : common) (w : World) (env : UpdateEnv)
    (cfg cfg2 : NetworkACLPut)
    (hinit : initInfo (some d.info) = d.info)
    (hstore : w.storeConfig = d.info.put)
    (hv : d.validateConfig env.aclNames cfg = .ok cfg2)
    (hok : env.storeUpdateOk = true)
    (hrev : env.revertStoreOk = true) :
    (env.networkUsage = none →
      d.Update w env cfg = (.error .networkUsageFailed, d,
        { w with log := w.log ++ [.updateACL cfg2, .updateACL d.info.put] })) ∧
    (∀ nets, env.networkUsage = some nets →
      (nets.filter fun p => p.2 == "ovn").isEmpty = false →
      env.ovnClientOk = false →
      d.Update w env cfg = (.error .ovnClientFailed, d,
        { w with log := w.log ++ [.updateACL cfg2, .updateACL d.info.put] })) ∧
    (∀ nets, env.networkUsage = some nets →
      (nets.filter fun p => p.2 == "ovn").isEmpty = false →
      env.ovnClientOk = true → env.aclNames = none →
      d.Update w env cfg = (.error .aclNamesFetchFailed, d,
        { w with log := w.log ++ [.updateACL cfg2, .updateACL d.info.put] })) ∧
    (∀ nets a, env.networkUsage = some nets →
      (nets.filter fun p => p.2 == "ovn").isEmpty = false →
      env.ovnClientOk = true → env.aclNames = some a → env.ensureACLsOk = false →
      d.Update w env cfg = (.error .ensureACLsFailed, d,
        { w with log := w.log ++ [.updateACL cfg2, .ensureACLs, .updateACL d.info.put] })) ∧
    (∀ nets a, env.networkUsage = some nets →
      (nets.filter fun p => p.2 == "ovn").isEmpty = false →
      env.ovnClientOk = true → env.aclNames = some a → env.ensureACLsOk = true →
      env.portGroupDeleteOk = false →
      d.Update w env cfg = (.error .portGroupDeleteFailed, d,
        { w with log := w.log ++ [.updateACL cfg2, .ensureACLs, .portGroupDelete,
          .ensureACLsRevert, .updateACL d.info.put] })) := by
  refine ⟨fun hn => ?_, fun nets hn hf hc => ?_, fun nets hn hf hc ha => ?_,
    fun nets a hn hf hc ha he => ?_, fun nets a hn hf hc ha he hp => ?_⟩
  all_goals
    unfold common.Update
    rw [hv]
    dsimp only
    rw [hok, hn]
    try dsimp only
    try rw [hf]
    try rw [hc]
    try rw [ha]
    try rw [he]
    try rw [hp]
    simp only [Bool.not_true, Bool.not_false, Bool.false_eq_true, eq_self_iff_true,
      if_true, if_false]
    try dsimp only
    rw [rollback_restores d env cfg2 _ hinit hrev]
    rw [← hstore]
    simp [List.append_assoc]

/-- A one-rule proposed config used by the rollback witness. -/
def cfgOneRule : NetworkACLPut :=
  { Description := "", Ingress := some [plainRule], Egress := some [], Config := some [] }

/-- Collaborators where everything succeeds except the final port-group
cleanup. -/
def envPortGroupFails : UpdateEnv :=
  { aclNames := some [], storeUpdateOk := true, networkUsage := some [("net1", "ovn")]
    ovnClientOk := true, ensureACLsOk := true, portGroupDeleteOk := false
    revertStoreOk := true }

/-- Witness for C1: a failing port-group cleanup after a successful store
write and OVN sync triggers the reverse-order rollback and returns the
original error. -/
theorem update_failure_rolls_back_witness :
    d0.Update w0 envPortGroupFails cfgOneRule = (.error .portGroupDeleteFailed, d0,
      { w0 with log := w0.log ++ [.updateACL cfgOneRule, .ensureACLs, .portGroupDelete,
        .ensureACLsRevert, .updateACL d0.info.put] }) :=
  (update_failure_rolls_back d0 w0 envPortGroupFails cfgOneRule cfgOneRule
      rfl rfl rfl rfl rfl).2.2.2.2 [("net1", "ovn")] [] rfl rfl rfl rfl rfl rfl

end ACL
